import Mathlib

/-!
Verification of the core orchestration logic of a bitcoin robustness-test
harness: the retry decorator (`src/util/decorators.py`), the PID-record
process health probe (`resources/lib/bitcoin_core.py`,
`resources/lib/robustness.py`), fault-injected node startup
(`resources/lib/robustness.py`) and the metrics collector
(`resources/lib/metrics_collector.py`).

The Python code is shallowly embedded: an operation that may raise becomes a
function into `Except`; a sequence of calls to the same fallible operation is
modelled by indexing attempts (`op : Nat → Except ε α` gives the outcome of
the k-th call); side effects relevant to the claims (sleeps, launch events)
are returned as explicit traces; the mutable dictionaries of the metrics
collector become association lists with Python dict update semantics.
-/

namespace BitcoinSystemTest

/-! ## Retry decorator (`src/util/decorators.py`, `retry_on_error`)

The Python loop is

    max_attempts = max_retries + 1
    for attempt in range(max_attempts):
        try:
            return func(*args, **kwargs)
        except Exception as e:
            last_exception = e
            if attempt < max_retries:
                ... sleep(wait_time)
    raise last_exception

`retryGo op wait attempt remaining` runs the loop from `attempt` with
`remaining` iterations left.  It returns the outcome delivered to the caller
(`none` encodes the unreachable `raise None` of an empty loop), the number of
times `func` was invoked, and the list of sleep durations performed. -/

def retryGo {ε α : Type} (op : Nat → Except ε α) (wait : Nat) :
    Nat → Nat → Option (Except ε α) × Nat × List Nat
  | _, 0 => (none, 0, [])
  | attempt, r + 1 =>
    match op attempt with
    | Except.ok a => (some (Except.ok a), 1, [])
    | Except.error e =>
      if r = 0 then (some (Except.error e), 1, [])
      else
        ((retryGo op wait (attempt + 1) r).1,
         (retryGo op wait (attempt + 1) r).2.1 + 1,
         wait :: (retryGo op wait (attempt + 1) r).2.2)

/-- One call of the wrapper produced by `retry_on_error(max_retries, wait_time)`:
`max_attempts = max_retries + 1` loop iterations starting from attempt 0. -/
def retryRun {ε α : Type} (op : Nat → Except ε α) (max_retries wait : Nat) :
    Option (Except ε α) × Nat × List Nat :=
  retryGo op wait 0 (max_retries + 1)

/-- `random.randint(a, b)` draws an integer in the inclusive range `[a, b]`;
the draw is determined by the generator state `seed`. -/
def pyRandint (a b seed : Nat) : Nat := a + seed % (b - a + 1)

/-- Evaluation of `wait_time` at decoration time:
`if wait_time is None: wait_time = random.randint(10, 20)`.  This runs once,
when `retry_on_error(...)` itself is called; the result is captured by the
closure and reused by every attempt of every later invocation. -/
def decoratorWait : Option Nat → Nat → Nat
  | some w, _ => w
  | none, seed => pyRandint 10 20 seed

lemma retryGo_zero {ε α : Type} (op : Nat → Except ε α) (wait attempt : Nat) :
    retryGo op wait attempt 0 = (none, 0, []) := rfl

lemma retryGo_ok {ε α : Type} (op : Nat → Except ε α) (wait attempt r : Nat)
    (a : α) (h : op attempt = Except.ok a) :
    retryGo op wait attempt (r + 1) = (some (Except.ok a), 1, []) := by
  rw [retryGo, h]

lemma retryGo_err_last {ε α : Type} (op : Nat → Except ε α) (wait attempt : Nat)
    (e : ε) (h : op attempt = Except.error e) :
    retryGo op wait attempt 1 = (some (Except.error e), 1, []) := by
  rw [retryGo, h]
  simp

lemma retryGo_err_step {ε α : Type} (op : Nat → Except ε α) (wait attempt r : Nat)
    (e : ε) (h : op attempt = Except.error e) :
    retryGo op wait attempt (r + 2) =
      ((retryGo op wait (attempt + 1) (r + 1)).1,
       (retryGo op wait (attempt + 1) (r + 1)).2.1 + 1,
       wait :: (retryGo op wait (attempt + 1) (r + 1)).2.2) := by
  rw [retryGo, h]
  simp

lemma retryGo_all_fail {ε α : Type} (op : Nat → Except ε α) (f : Nat → ε)
    (h : ∀ k, op k = Except.error (f k)) (wait : Nat) :
    ∀ r attempt, retryGo op wait attempt (r + 1) =
      (some (Except.error (f (attempt + r))), r + 1, List.replicate r wait) := by
  intro r
  induction r with
  | zero => intro attempt; simpa using retryGo_err_last op wait attempt _ (h attempt)
  | succ r' ih =>
    intro attempt
    rw [retryGo_err_step op wait attempt r' _ (h attempt), ih (attempt + 1)]
    have harith : attempt + 1 + r' = attempt + (r' + 1) := by omega
    simp [harith, List.replicate]

lemma retryGo_sleeps_const {ε α : Type} (op : Nat → Except ε α) (wait : Nat) :
    ∀ r attempt, ∀ s ∈ (retryGo op wait attempt r).2.2, s = wait := by
  intro r
  induction r with
  | zero =>
    intro attempt s hs
    rw [retryGo_zero] at hs
    simp at hs
  | succ r' ih =>
    intro attempt s hs
    cases hop : op attempt with
    | ok a =>
      rw [retryGo_ok op wait attempt r' a hop] at hs
      simp at hs
    | error e =>
      cases r' with
      | zero =>
        rw [retryGo_err_last op wait attempt e hop] at hs
        simp at hs
      | succ r'' =>
        rw [retryGo_err_step op wait attempt r'' e hop] at hs
        rcases List.mem_cons.mp hs with rfl | hs'
        · rfl
        · exact ih (attempt + 1) s hs'

/-- Claim C2: for every `maxRetries = n` and every operation failing on every
call, the wrapper invokes the operation exactly `n + 1` times and the error
finally raised is exactly the error of the last attempt (`f n`), unwrapped.
(The sleep trace, `n` delays, is established as well.) -/
theorem retry_permanent_failure {ε α : Type} (op : Nat → Except ε α) (f : Nat → ε)
    (n wait : Nat) (h : ∀ k, op k = Except.error (f k)) :
    retryRun op n wait = (some (Except.error (f n)), n + 1, List.replicate n wait) := by
  have := retryGo_all_fail op f h wait n 0
  simpa [retryRun] using this

theorem retry_permanent_failure_witness :
    retryRun (fun k => (Except.error k : Except Nat Unit)) 2 5 =
      (some (Except.error 2), 3, List.replicate 2 5) :=
  retry_permanent_failure (fun k => (Except.error k : Except Nat Unit)) id 2 5
    (fun _ => rfl)

/-- Claim C5: for `maxRetries ≥ 1`, an operation failing on its first attempt
and succeeding on its second returns the success value after exactly one delay
of `waitSeconds` (sleep trace `[wait]`, two invocations); moreover success at
any attempt returns immediately with no further attempt and no further delay. -/
theorem retry_fail_once_then_success {ε α : Type} (op : Nat → Except ε α)
    (e : ε) (v : α) (m wait : Nat)
    (h0 : op 0 = Except.error e) (h1 : op 1 = Except.ok v) (hm : 1 ≤ m) :
    retryRun op m wait = (some (Except.ok v), 2, [wait]) ∧
    (∀ (a r : Nat) (v' : α), op a = Except.ok v' →
      retryGo op wait a (r + 1) = (some (Except.ok v'), 1, [])) := by
  constructor
  · obtain ⟨m', rfl⟩ : ∃ m', m = m' + 1 := ⟨m - 1, (Nat.succ_pred_eq_of_pos hm).symm⟩
    simp [retryRun, retryGo, h0, h1]
  · intro a r v' hv
    cases r <;> simp [retryGo, hv]

theorem retry_fail_once_then_success_witness :
    retryRun (fun k => if k = 0 then (Except.error 9 : Except Nat Nat) else Except.ok 42)
      3 7 = (some (Except.ok 42), 2, [7]) :=
  (retry_fail_once_then_success
    (fun k => if k = 0 then (Except.error 9 : Except Nat Nat) else Except.ok 42)
    9 42 3 7 rfl rfl (by decide)).1

/-- Claim C10: with no explicit wait time, the default delay is sampled once,
at decoration time, as an integer in `[10, 20]` inclusive; that single value
is the duration of every sleep of every invocation of the decorated function,
so any two runs use an identical delay, with no re-sampling per call or per
attempt. -/
theorem decoration_time_wait_sampled_once {ε α : Type} (seed : Nat)
    (op₁ op₂ : Nat → Except ε α) (m₁ m₂ : Nat) :
    (10 ≤ decoratorWait none seed ∧ decoratorWait none seed ≤ 20) ∧
    (∀ s ∈ (retryRun op₁ m₁ (decoratorWait none seed)).2.2, s = decoratorWait none seed) ∧
    (∀ s ∈ (retryRun op₂ m₂ (decoratorWait none seed)).2.2, s = decoratorWait none seed) ∧
    (∀ s₁ ∈ (retryRun op₁ m₁ (decoratorWait none seed)).2.2,
      ∀ s₂ ∈ (retryRun op₂ m₂ (decoratorWait none seed)).2.2, s₁ = s₂) := by
  refine ⟨⟨?_, ?_⟩, ?_, ?_, ?_⟩
  · exact Nat.le_add_right 10 _
  · have : seed % 11 < 11 := Nat.mod_lt _ (by decide)
    simp only [decoratorWait, pyRandint]
    omega
  · exact retryGo_sleeps_const op₁ _ _ 0
  · exact retryGo_sleeps_const op₂ _ _ 0
  · intro s₁ h₁ s₂ h₂
    rw [retryGo_sleeps_const op₁ _ _ 0 s₁ h₁, retryGo_sleeps_const op₂ _ _ 0 s₂ h₂]

/-! ## Error taxonomy (§7 of the spec)

In the source every failure is a Python exception; `retry_on_error` catches
the base class `Exception`, so the catch clause does not discriminate by
kind.  The kinds named by the spec are modelled as constructors. -/

inductive PyError where
  | transientLaunch (msg : String)
  | launchFailed (msg : String)
  | commandError (msg : String)
  | valueError (msg : String)
deriving Repr, DecidableEq

def PyError.isTransient : PyError → Bool
  | .transientLaunch _ => true
  | _ => false

/-- Claim C3 as stated is false: `retry_on_error`'s handler is
`except Exception`, so a wrapped operation that always raises a
non-transient error (here a `ValueError`) with `max_retries = 1` is invoked
twice — it is retried rather than propagating uncaught after one attempt. -/
theorem retry_nontransient_retried_counterexample :
    (retryRun (fun _ => (Except.error (PyError.valueError "boom") : Except PyError Unit))
      1 0).2.1 = 2 ∧
    (retryRun (fun _ => (Except.error (PyError.valueError "boom") : Except PyError Unit))
      1 0).2.1 ≠ 1 ∧
    (PyError.valueError "boom").isTransient = false := by
  refine ⟨?_, by simp [retryRun, retryGo], rfl⟩
  simp [retryRun, retryGo]

/-- Claim C3 (amended): within a retry-wrapped call every error raised by the
wrapped operation — transient or not — is caught and retried the same way;
with `maxRetries = m` a permanently failing operation whose errors are all
non-transient is still invoked `m + 1` times, and after retries exhaust the
last error is re-raised unchanged. -/
theorem retry_catches_every_error {α : Type} (op : Nat → Except PyError α)
    (f : Nat → PyError) (m wait : Nat)
    (h : ∀ k, op k = Except.error (f k))
    (_hnt : ∀ k, (f k).isTransient = false) :
    retryRun op m wait = (some (Except.error (f m)), m + 1, List.replicate m wait) := by
  have := retryGo_all_fail op f h wait m 0
  simpa [retryRun] using this

theorem retry_catches_every_error_witness :
    (∀ k : Nat, (PyError.commandError "rpc down").isTransient = false ∧ k = k) ∧
    retryRun (fun _ => (Except.error (PyError.commandError "rpc down") : Except PyError Unit))
      2 1 = (some (Except.error (PyError.commandError "rpc down")), 3, List.replicate 2 1) :=
  ⟨fun _ => ⟨rfl, rfl⟩,
   retry_catches_every_error
     (fun _ => (Except.error (PyError.commandError "rpc down") : Except PyError Unit))
     (fun _ => PyError.commandError "rpc down") 2 1 (fun _ => rfl) (fun _ => rfl)⟩

/-! ## Process health probe
(`bitcoin_core.py::check_node_is_running`, `robustness.py::_check_node_exited`)

The PID record under `<datadir>/regtest/bitcoind.pid` is either absent, holds
text that `int(...)` rejects (`ValueError`, caught), or holds a PID that is
probed with `os.kill(pid, 0)` (`OSError` for a nonexistent process, caught).
The OS is modelled by which PIDs name a live process.  Both Python functions
catch `(OSError, ValueError)` and return a boolean on every path, so the
embeddings are total into `Bool`: the caught-exception paths are the
`false` / `true` branches below. -/

inductive PidRecord where
  | absent
  | unparsable
  | pid (p : Nat)
deriving Repr, DecidableEq

structure OsState where
  processAlive : Nat → Bool

/-- `bitcoin_core.py::check_node_is_running`. -/
def check_node_is_running (rec : PidRecord) (os : OsState) : Bool :=
  match rec with
  | .absent => false
  | .unparsable => false
  | .pid p => os.processAlive p

/-- `robustness.py::_check_node_exited` (independent re-implementation in the
source with the same record handling, returning the negation). -/
def check_node_exited (rec : PidRecord) (os : OsState) : Bool :=
  match rec with
  | .absent => true
  | .unparsable => true
  | .pid p => !os.processAlive p

/-- Claim C6: `isRunning` returns false when the PID record is absent, false
when it is unparsable, and false when the recorded PID names no live process;
each case returns normally (the embedding is total — the source catches
`OSError` and `ValueError` on exactly these paths). -/
theorem check_node_is_running_false_cases (os : OsState) (p : Nat) :
    check_node_is_running PidRecord.absent os = false ∧
    check_node_is_running PidRecord.unparsable os = false ∧
    (os.processAlive p = false → check_node_is_running (PidRecord.pid p) os = false) := by
  refine ⟨rfl, rfl, fun h => ?_⟩
  simp [check_node_is_running, h]

theorem check_node_is_running_false_cases_witness :
    check_node_is_running PidRecord.absent ⟨fun _ => false⟩ = false ∧
    check_node_is_running PidRecord.unparsable ⟨fun _ => false⟩ = false ∧
    check_node_is_running (PidRecord.pid 7) ⟨fun _ => false⟩ = false := by
  obtain ⟨h1, h2, h3⟩ := check_node_is_running_false_cases ⟨fun _ => false⟩ 7
  exact ⟨h1, h2, h3 rfl⟩

/-! ## Fault-injected victim startup (`robustness.py`)

`_start_victim_node` launches bitcoind through `fiu-run`, raises on a
non-zero launch status, sleeps a fixed 3-second settle delay, then re-checks
liveness with `_check_node_exited` and raises the retryable transient error
if the process is gone.  The whole body carries the decorator
`@retry_on_error(max_retries=config.FAULT_INJECTION_RETRY_MAX,
wait_time=config.FAULT_INJECTION_RETRY_WAIT)`;
`start_victim_node_with_fault_injection` simply calls the wrapped function.
The environment gives, per attempt, the launch status and the post-settle
PID record and OS state. -/

structure VictimEnv where
  launchOk : Nat → Bool
  pidRecord : Nat → PidRecord
  osState : Nat → OsState

inductive LaunchEvent where
  | launched
  | slept (secs : Nat)
  | checkedLiveness
deriving Repr, DecidableEq

/-- One attempt of `_start_victim_node`, with its trace of externally visible
steps (launch, the fixed 3-second settle sleep, the liveness re-check). -/
def start_victim_attempt (env : VictimEnv) (k : Nat) :
    List LaunchEvent × Except PyError Unit :=
  if env.launchOk k = false then
    ([LaunchEvent.launched], Except.error (PyError.launchFailed "Failed to start victim node"))
  else if check_node_exited (env.pidRecord k) (env.osState k) then
    ([LaunchEvent.launched, LaunchEvent.slept 3, LaunchEvent.checkedLiveness],
     Except.error (PyError.transientLaunch
       "Victim node exited shortly after start (likely due to fault injection)"))
  else
    ([LaunchEvent.launched, LaunchEvent.slept 3, LaunchEvent.checkedLiveness], Except.ok ())

/-- `start_victim_node_with_fault_injection`: the attempt body run under the
retry decorator with the configured policy (`maxR` = FAULT_INJECTION_RETRY_MAX,
`wait` = FAULT_INJECTION_RETRY_WAIT from config). -/
def start_victim_node_with_fault_injection (env : VictimEnv) (maxR wait : Nat) :
    Option (Except PyError Unit) × Nat × List Nat :=
  retryRun (fun k => (start_victim_attempt env k).2) maxR wait

/-- Claim C4: whenever the launch succeeds but the post-settle liveness
re-check finds the process exited, the attempt's trace is launch, the fixed
3-second settle sleep, then the liveness check, and it raises the retryable
transient launch error; and since the whole sequence runs under the retry
wrapper with the configured policy, if every attempt fails this way the
sequence is restarted after each failure until retries are exhausted
(`maxR + 1` attempts, `maxR` delays of `wait`), finally re-raising the
transient error. -/
theorem start_victim_fault_injection_retries (env : VictimEnv) (maxR wait : Nat)
    (hall : ∀ j, env.launchOk j = true ∧
      check_node_exited (env.pidRecord j) (env.osState j) = true) :
    (∀ k, start_victim_attempt env k =
      ([LaunchEvent.launched, LaunchEvent.slept 3, LaunchEvent.checkedLiveness],
       Except.error (PyError.transientLaunch
         "Victim node exited shortly after start (likely due to fault injection)"))) ∧
    start_victim_node_with_fault_injection env maxR wait =
      (some (Except.error (PyError.transientLaunch
         "Victim node exited shortly after start (likely due to fault injection)")),
       maxR + 1, List.replicate maxR wait) := by
  have hstep : ∀ k, start_victim_attempt env k =
      ([LaunchEvent.launched, LaunchEvent.slept 3, LaunchEvent.checkedLiveness],
       Except.error (PyError.transientLaunch
         "Victim node exited shortly after start (likely due to fault injection)")) := by
    intro k
    obtain ⟨h1, h2⟩ := hall k
    simp [start_victim_attempt, h1, h2]
  refine ⟨hstep, ?_⟩
  have := retryGo_all_fail (fun k => (start_victim_attempt env k).2)
    (fun _ => PyError.transientLaunch
      "Victim node exited shortly after start (likely due to fault injection)")
    (fun k => by simp only []; rw [hstep k]) wait maxR 0
  simpa [start_victim_node_with_fault_injection, retryRun] using this

theorem start_victim_fault_injection_retries_witness :
    start_victim_node_with_fault_injection
      ⟨fun _ => true, fun _ => PidRecord.absent, fun _ => ⟨fun _ => false⟩⟩ 1 2 =
      (some (Except.error (PyError.transientLaunch
         "Victim node exited shortly after start (likely due to fault injection)")),
       2, List.replicate 1 2) :=
  (start_victim_fault_injection_retries
    ⟨fun _ => true, fun _ => PidRecord.absent, fun _ => ⟨fun _ => false⟩⟩ 1 2
    (fun _ => ⟨rfl, rfl⟩)).2

/-! ## Metrics collector (`resources/lib/metrics_collector.py`)

A snapshot is the dict built by `_collect_node_metrics`: it always holds
`timestamp` and `node_name`; `blockchain_info` (a JSON object, modelled as an
association list consumed via `.get('blocks', 0)`) and `peer_info` (a JSON
array whose length is the peer count) are added only when the corresponding
`_execute_rpc` call returned a truthy parsed result.  Python dicts are
modelled as association lists with dict update semantics. -/

abbrev JsonObj := List (String × Int)

/-- `obj.get(key, dflt)` on a JSON object. -/
def jsonGet (o : JsonObj) (k : String) (dflt : Int) : Int :=
  match o.find? (fun kv => kv.1 == k) with
  | some kv => kv.2
  | none => dflt

structure Snapshot where
  timestamp : Nat
  node_name : String
  blockchain_info : Option JsonObj
  peer_info : Option (List Unit)
deriving Repr, DecidableEq

/-- `_collect_node_metrics`: starts the dict with `timestamp` and
`node_name`; each RPC result is added under `if blockchain_info:` /
`if peer_info:`, i.e. only when the parsed value is truthy (a non-empty
object / non-empty array).  An RPC failure is `none` (the source's
`_execute_rpc` returns `None` on non-zero exit, timeout or parse error). -/
def collect_node_metrics (ts : Nat) (name : String)
    (bc : Option JsonObj) (pl : Option (List Unit)) : Snapshot :=
  { timestamp := ts
    node_name := name
    blockchain_info :=
      match bc with
      | some o => if o.isEmpty then none else some o
      | none => none
    peer_info :=
      match pl with
      | some l => if l.isEmpty then none else some l
      | none => none }

/-- Number of keys of the snapshot's underlying Python dict: `timestamp` and
`node_name` are always present, the two payload keys only when set. -/
def metricsDictSize (m : Snapshot) : Nat :=
  2 + (if m.blockchain_info.isSome then 1 else 0) + (if m.peer_info.isSome then 1 else 0)

/-- Truthiness of the metrics dict, as tested by `if metrics:` in
`_collect_metrics_loop`: a Python dict is truthy iff it is non-empty. -/
def metricsTruthy (m : Snapshot) : Bool := decide (0 < metricsDictSize m)

/-- One iteration body of `_collect_metrics_loop`: collect, and under
`if metrics:` append the snapshot to the node's list. -/
def collectCycle (data : List Snapshot) (ts : Nat) (name : String)
    (bc : Option JsonObj) (pl : Option (List Unit)) : List Snapshot :=
  let m := collect_node_metrics ts name bc pl
  if metricsTruthy m then data ++ [m] else data

/-- Claim C1 evaluated on the code: in a cycle where both RPC queries fail
(`bc = none`, `pl = none` — `_execute_rpc` returned `None` twice), the
metrics dict still holds `timestamp` and `node_name`, is therefore truthy,
and a partial snapshot IS appended: the snapshot list grows from `[]` to a
one-element list whose element carries no chain state and no peer list. -/
theorem failed_sample_appends_partial_snapshot :
    collectCycle [] 0 "victim" none none =
      [{ timestamp := 0, node_name := "victim",
         blockchain_info := none, peer_info := none }] ∧
    metricsTruthy (collect_node_metrics 0 "victim" none none) = true := by
  constructor <;> rfl

/-! ### Python dict operations on association lists -/

def dictGet? {β : Type} (d : List (String × β)) (k : String) : Option β :=
  (d.find? (fun kv => kv.1 == k)).map (·.2)

def dictSet {β : Type} (d : List (String × β)) (k : String) (v : β) :
    List (String × β) :=
  if d.any (fun kv => kv.1 == k) then
    d.map (fun kv => if kv.1 == k then (k, v) else kv)
  else
    d ++ [(k, v)]

def dictDel {β : Type} (d : List (String × β)) (k : String) : List (String × β) :=
  d.filter (fun kv => kv.1 != k)

abbrev Store := List (String × List Snapshot)

/-- Per-snapshot block height as read by `get_metrics_summary`:
`m.get('blockchain_info', {}).get('blocks', 0)`. -/
def snapBlocks (m : Snapshot) : Int :=
  jsonGet (m.blockchain_info.getD []) "blocks" 0

/-- Per-snapshot peer count: `len(m.get('peer_info', []))`. -/
def snapPeerCount (m : Snapshot) : Nat :=
  (m.peer_info.getD []).length

structure Summary where
  total_snapshots : Nat
  first_snapshot : Nat
  last_snapshot : Nat
  initial_block_count : Int
  final_block_count : Int
  blocks_synced : Int
  avg_peer_count : ℚ
  max_peer_count : Nat
deriving Repr, DecidableEq

/-- `get_metrics_summary`: `{}` (here `none`) when the name is unknown or its
list is empty; otherwise the summary dict.  `block_counts[0]` /
`block_counts[-1]` are head / last of a non-empty map (`headD` / `getLastD`
over the non-empty list); Python's `max` over the non-empty `peer_counts`
agrees with `foldl max 0` on naturals; `avg` is the exact rational value of
`sum(peer_counts) / len(peer_counts)`. -/
def get_metrics_summary (store : Store) (node_name : String) : Option Summary :=
  match dictGet? store node_name with
  | none => none
  | some metrics =>
    match metrics with
    | [] => none
    | m0 :: rest =>
      let block_counts := (m0 :: rest).map snapBlocks
      let peer_counts := (m0 :: rest).map snapPeerCount
      some
        { total_snapshots := (m0 :: rest).length
          first_snapshot := m0.timestamp
          last_snapshot := (rest.getLastD m0).timestamp
          initial_block_count := block_counts.headD 0
          final_block_count := block_counts.getLastD 0
          blocks_synced := block_counts.getLastD 0 - block_counts.headD 0
          avg_peer_count := (peer_counts.sum : ℚ) / (peer_counts.length : ℚ)
          max_peer_count := peer_counts.foldl max 0 }

/-- `save_metrics_to_file`: under the lock, a copy of the node's current list
is taken and serialized (or, when the name is unknown, a warning is logged
and nothing is written — `none`).  The written content is the copied list. -/
def export_metrics (store : Store) (node_name : String) : Option (List Snapshot) :=
  dictGet? store node_name

lemma map_getLastD {γ δ : Type} (f : γ → δ) :
    ∀ (l : List γ) (a : γ) (d : δ), ((a :: l).map f).getLastD d = f (l.getLastD a) := by
  intro l
  induction l with
  | nil => intro a d; rfl
  | cons b t ih =>
    intro a d
    rw [List.map_cons, List.getLastD_cons, List.getLastD_cons]
    exact ih b (f a)

lemma le_foldl_max (l : List Nat) :
    ∀ init, init ≤ l.foldl max init ∧ ∀ x ∈ l, x ≤ l.foldl max init := by
  induction l with
  | nil => intro init; simp
  | cons b t ih =>
    intro init
    refine ⟨le_trans (le_max_left init b) (ih (max init b)).1, ?_⟩
    intro x hx
    rcases List.mem_cons.mp hx with rfl | hx'
    · exact le_trans (le_max_right init x) (ih (max init x)).1
    · exact (ih (max init b)).2 x hx'

lemma foldl_max_mem (l : List Nat) :
    ∀ init, l.foldl max init = init ∨ l.foldl max init ∈ l := by
  induction l with
  | nil => intro init; simp
  | cons b t ih =>
    intro init
    rcases ih (max init b) with h | h
    · rcases Nat.le_total init b with hb | hb
      · right
        rw [List.foldl_cons, h, max_eq_right hb]
        exact List.mem_cons_self b t
      · left
        rw [List.foldl_cons, h, max_eq_left hb]
    · right
      rw [List.foldl_cons]
      exact List.mem_cons_of_mem b h

/-- Claim C8: `get_metrics_summary` yields the empty result (never raising)
when no data exists for the name — the name is unknown or its list is
empty — and on a non-empty snapshot list yields the snapshot count, the
first and last timestamps, the first and last block heights, the height
delta (last minus first), the exact mean of the peer counts, and a peer
count that bounds and is attained by the list (the maximum). -/
theorem get_metrics_summary_spec (store : Store) (name : String) :
    ((dictGet? store name = none ∨ dictGet? store name = some []) →
      get_metrics_summary store name = none) ∧
    (∀ (m0 : Snapshot) (rest : List Snapshot),
      dictGet? store name = some (m0 :: rest) →
      ∃ s, get_metrics_summary store name = some s ∧
        s.total_snapshots = rest.length + 1 ∧
        s.first_snapshot = m0.timestamp ∧
        s.last_snapshot = (rest.getLastD m0).timestamp ∧
        s.initial_block_count = snapBlocks m0 ∧
        s.final_block_count = snapBlocks (rest.getLastD m0) ∧
        s.blocks_synced = snapBlocks (rest.getLastD m0) - snapBlocks m0 ∧
        s.avg_peer_count =
          (((m0 :: rest).map snapPeerCount).sum : ℚ) / ((rest.length + 1 : Nat) : ℚ) ∧
        (∀ c ∈ (m0 :: rest).map snapPeerCount, c ≤ s.max_peer_count) ∧
        s.max_peer_count ∈ (m0 :: rest).map snapPeerCount) := by
  constructor
  · rintro (hnone | hempty)
    · rw [get_metrics_summary, hnone]
    · rw [get_metrics_summary, hempty]
  · intro m0 rest hfind
    rw [get_metrics_summary, hfind]
    refine ⟨_, rfl, by simp, rfl, rfl, rfl, ?_, ?_, by simp, ?_, ?_⟩
    · show ((m0 :: rest).map snapBlocks).getLastD 0 = snapBlocks (rest.getLastD m0)
      exact map_getLastD snapBlocks rest m0 0
    · show ((m0 :: rest).map snapBlocks).getLastD 0 - ((m0 :: rest).map snapBlocks).headD 0 =
        snapBlocks (rest.getLastD m0) - snapBlocks m0
      rw [map_getLastD snapBlocks rest m0 0]
      rfl
    · exact (le_foldl_max ((m0 :: rest).map snapPeerCount) 0).2
    · rcases foldl_max_mem ((m0 :: rest).map snapPeerCount) 0 with hz | hm
      · rw [hz]
        have hle := (le_foldl_max ((m0 :: rest).map snapPeerCount) 0).2
          (snapPeerCount m0) (by simp)
        rw [hz] at hle
        have : snapPeerCount m0 = 0 := Nat.le_zero.mp hle
        rw [← this]
        simp
      · exact hm

theorem get_metrics_summary_spec_witness :
    ∃ s, get_metrics_summary
        [("n", [{ timestamp := 0, node_name := "n",
                  blockchain_info := some [("blocks", 100)], peer_info := none },
                { timestamp := 10, node_name := "n",
                  blockchain_info := some [("blocks", 101)], peer_info := none }])]
        "n" = some s ∧
      s.blocks_synced = 1 ∧ s.total_snapshots = 2 ∧
      get_metrics_summary [] "unknown" = none := by
  obtain ⟨s, hs, htot, _, _, _, _, hsync, _, _, _⟩ :=
    (get_metrics_summary_spec
      [("n", [{ timestamp := 0, node_name := "n",
                blockchain_info := some [("blocks", 100)], peer_info := none },
              { timestamp := 10, node_name := "n",
                blockchain_info := some [("blocks", 101)], peer_info := none }])]
      "n").2
      { timestamp := 0, node_name := "n",
        blockchain_info := some [("blocks", 100)], peer_info := none }
      [{ timestamp := 10, node_name := "n",
         blockchain_info := some [("blocks", 101)], peer_info := none }]
      rfl
  refine ⟨s, hs, ?_, by rw [htot]; rfl, rfl⟩
  rw [hsync]
  rfl

/-! ### Collector bookkeeping (`start_metrics_collection`,
`stop_metrics_collection`)

`MetricsCollector` holds three dicts keyed by node name: the collection
threads (modelled by the list of registered names), the stop events (with
their set-flag), and the metrics data.  `start` is a guarded no-op when a
thread is already registered; otherwise it resets the name's data list to
`[]`, installs a cleared stop event and registers the thread.  `stop` is a
guarded no-op when none is registered; otherwise it sets the event, joins,
and deletes the thread and event entries — the metrics data is left in
place.  The remaining parameters of the Python `start` (datadir, cli path,
interval, rpcport) configure the spawned loop, modelled by `collectCycle`,
and do not enter the bookkeeping transition. -/

structure CollectorState where
  collection_threads : List String
  stop_events : List (String × Bool)
  metrics_data : Store
deriving Repr, DecidableEq

def start_metrics_collection (name : String) (st : CollectorState) : CollectorState :=
  if st.collection_threads.contains name then st
  else
    { collection_threads := st.collection_threads ++ [name]
      stop_events := dictSet st.stop_events name false
      metrics_data := dictSet st.metrics_data name [] }

def stop_metrics_collection (name : String) (st : CollectorState) : CollectorState :=
  if st.collection_threads.contains name then
    { collection_threads := st.collection_threads.filter (fun n => n != name)
      stop_events := dictDel st.stop_events name
      metrics_data := st.metrics_data }
  else st

lemma find?_eq_none_of_any_eq_false {β : Type} :
    ∀ (d : List (String × β)) (k : String),
      d.any (fun kv => kv.1 == k) = false → d.find? (fun kv => kv.1 == k) = none := by
  intro d k h
  induction d with
  | nil => rfl
  | cons kv t ih =>
    simp only [List.any_cons, Bool.or_eq_false_iff] at h
    simp [List.find?, h.1, ih h.2]

lemma find?_map_set_of_any_eq_true {β : Type} :
    ∀ (d : List (String × β)) (k : String) (v : β),
      d.any (fun kv => kv.1 == k) = true →
      (d.map (fun kv => if kv.1 == k then (k, v) else kv)).find?
        (fun kv => kv.1 == k) = some (k, v) := by
  intro d k v h
  induction d with
  | nil => simp at h
  | cons kv t ih =>
    by_cases hk : (kv.1 == k) = true
    · rw [List.map_cons, if_pos hk]
      exact List.find?_cons_of_pos _ (by simp)
    · rw [List.map_cons, if_neg hk]
      have hstep : List.find? (fun kv => kv.1 == k)
          (kv :: List.map (fun kv => if (kv.1 == k) = true then (k, v) else kv) t) =
          List.find? (fun kv => kv.1 == k)
            (List.map (fun kv => if (kv.1 == k) = true then (k, v) else kv) t) :=
        List.find?_cons_of_neg _ hk
      rw [hstep]
      apply ih
      rw [List.any_cons] at h
      rcases Bool.or_eq_true_iff.mp h with h' | h'
      · exact absurd h' hk
      · exact h'

/-- Looking up a key right after a Python dict assignment yields the assigned
value. -/
lemma dictGet?_dictSet {β : Type} (d : List (String × β)) (k : String) (v : β) :
    dictGet? (dictSet d k v) k = some v := by
  by_cases hany : (d.any (fun kv => kv.1 == k)) = true
  · simp only [dictGet?, dictSet]
    rw [if_pos hany, find?_map_set_of_any_eq_true d k v hany]
    rfl
  · have hany' : d.any (fun kv => kv.1 == k) = false := Bool.not_eq_true _ ▸ hany
    simp only [dictGet?, dictSet]
    rw [if_neg hany, List.find?_append, find?_eq_none_of_any_eq_false d k hany',
      List.find?_cons_of_pos _ (by simp)]
    rfl

/-- Claim C7: starting sampling for a name, then starting it again while the
session is active, leaves the state of the first start unchanged (the second
call is a pure no-op: no new session, no modification of the existing
session's bookkeeping or data), and exactly one session is registered for the
name. -/
theorem start_sampling_twice_one_session (st : CollectorState) (name : String)
    (h : name ∉ st.collection_threads) :
    start_metrics_collection name (start_metrics_collection name st) =
      start_metrics_collection name st ∧
    (start_metrics_collection name st).collection_threads.count name = 1 ∧
    (start_metrics_collection name st).collection_threads.contains name = true := by
  have hc : st.collection_threads.contains name = false := by
    simp [List.contains, h]
  have hst1 : start_metrics_collection name st =
      { collection_threads := st.collection_threads ++ [name]
        stop_events := dictSet st.stop_events name false
        metrics_data := dictSet st.metrics_data name [] } := by
    simp only [start_metrics_collection]
    rw [if_neg (by simpa using h)]
  have hmem : (start_metrics_collection name st).collection_threads.contains name = true := by
    rw [hst1]
    simp [List.contains]
  refine ⟨?_, ?_, hmem⟩
  · conv_lhs => rw [start_metrics_collection]
    rw [if_pos hmem]
  · rw [hst1]
    simp [List.count_append, List.count_eq_zero.mpr h, List.count_cons]

theorem start_sampling_twice_one_session_witness :
    start_metrics_collection "victim" (start_metrics_collection "victim" ⟨[], [], []⟩) =
      start_metrics_collection "victim" ⟨[], [], []⟩ ∧
    (start_metrics_collection "victim" ⟨[], [], []⟩).collection_threads.count "victim" = 1 ∧
    (start_metrics_collection "victim" ⟨[], [], []⟩).collection_threads.contains "victim"
      = true :=
  start_sampling_twice_one_session ⟨[], [], []⟩ "victim" (by simp)

/-- Claim C9: stopping a session leaves its collected snapshots in the store,
but a subsequent `start_metrics_collection` for the same name resets the
stored list to `[]`: the earlier session's snapshots are discarded, the
summary of the restarted (still empty) session is the empty dict, and an
export writes the empty list. -/
theorem restart_discards_previous_snapshots (st : CollectorState) (name : String)
    (snaps : List Snapshot)
    (hactive : name ∈ st.collection_threads)
    (hdata : dictGet? st.metrics_data name = some snaps) :
    dictGet? (stop_metrics_collection name st).metrics_data name = some snaps ∧
    (stop_metrics_collection name st).collection_threads.contains name = false ∧
    dictGet? (start_metrics_collection name
      (stop_metrics_collection name st)).metrics_data name = some [] ∧
    get_metrics_summary (start_metrics_collection name
      (stop_metrics_collection name st)).metrics_data name = none ∧
    export_metrics (start_metrics_collection name
      (stop_metrics_collection name st)).metrics_data name = some [] := by
  have hc : st.collection_threads.contains name = true := by
    simp [List.contains, hactive]
  have hstop : stop_metrics_collection name st =
      { collection_threads := st.collection_threads.filter (fun n => n != name)
        stop_events := dictDel st.stop_events name
        metrics_data := st.metrics_data } := by
    simp only [stop_metrics_collection]
    rw [if_pos hc]
  have hgone : (stop_metrics_collection name st).collection_threads.contains name = false := by
    rw [hstop]
    simp [List.contains]
  have hstart : (start_metrics_collection name
      (stop_metrics_collection name st)).metrics_data =
      dictSet (stop_metrics_collection name st).metrics_data name [] := by
    simp only [start_metrics_collection]
    rw [if_neg (by simpa using hgone)]
  have hlookup : dictGet? (start_metrics_collection name
      (stop_metrics_collection name st)).metrics_data name = some [] := by
    rw [hstart]
    exact dictGet?_dictSet _ name []
  refine ⟨?_, hgone, hlookup, ?_, hlookup⟩
  · rw [hstop]
    exact hdata
  · rw [get_metrics_summary, hlookup]

theorem restart_discards_previous_snapshots_witness :
    dictGet? (stop_metrics_collection "n"
      ⟨["n"], [("n", true)],
       [("n", [{ timestamp := 0, node_name := "n",
                 blockchain_info := some [("blocks", 100)], peer_info := none }])]⟩
      ).metrics_data "n" =
      some [{ timestamp := 0, node_name := "n",
              blockchain_info := some [("blocks", 100)], peer_info := none }] ∧
    (stop_metrics_collection "n"
      ⟨["n"], [("n", true)],
       [("n", [{ timestamp := 0, node_name := "n",
                 blockchain_info := some [("blocks", 100)], peer_info := none }])]⟩
      ).collection_threads.contains "n" = false ∧
    dictGet? (start_metrics_collection "n" (stop_metrics_collection "n"
      ⟨["n"], [("n", true)],
       [("n", [{ timestamp := 0, node_name := "n",
                 blockchain_info := some [("blocks", 100)], peer_info := none }])]⟩
      )).metrics_data "n" = some [] ∧
    get_metrics_summary (start_metrics_collection "n" (stop_metrics_collection "n"
      ⟨["n"], [("n", true)],
       [("n", [{ timestamp := 0, node_name := "n",
                 blockchain_info := some [("blocks", 100)], peer_info := none }])]⟩
      )).metrics_data "n" = none ∧
    export_metrics (start_metrics_collection "n" (stop_metrics_collection "n"
      ⟨["n"], [("n", true)],
       [("n", [{ timestamp := 0, node_name := "n",
                 blockchain_info := some [("blocks", 100)], peer_info := none }])]⟩
      )).metrics_data "n" = some [] :=
  restart_discards_previous_snapshots
    ⟨["n"], [("n", true)],
     [("n", [{ timestamp := 0, node_name := "n",
               blockchain_info := some [("blocks", 100)], peer_info := none }])]⟩
    "n" _ (by simp) rfl

end BitcoinSystemTest
